import Mathlib

/-!
Verification of the SmartBuffer library (src/include/smart_buffer.hpp).

The C++ class `SmartBuffer<Size, StaticThreshold>` stores a byte buffer either
inline (std::array, the "static" strategy) or on the heap (std::unique_ptr,
the "dynamic" strategy), chosen at compile time by comparing the 8-byte-rounded
size against the threshold.  All size arithmetic is done on std::size_t, i.e.
modulo 2 ^ w for the machine word width w; we model that width explicitly.
-/

namespace SmartBufferModel

/-- `round_up_to_8(size) = (size + 7) & ~std::size_t(7)` from smart_buffer.hpp,
with std::size_t arithmetic modelled as arithmetic modulo `2 ^ w`
(`~7` on a w-bit word is `2 ^ w - 1 - 7`). -/
def round_up_to_8 (w n : Nat) : Nat :=
  ((n + 7) % 2 ^ w) &&& (2 ^ w - 1 - 7)

/-- `ACTUAL_SIZE = round_up_to_8(Size)` from smart_buffer.hpp. -/
def ACTUAL_SIZE (w size : Nat) : Nat :=
  round_up_to_8 w size

/-- `use_static = ACTUAL_SIZE <= STATIC_THRESHOLD` from smart_buffer.hpp. -/
def use_static (w size threshold : Nat) : Bool :=
  decide (ACTUAL_SIZE w size ≤ threshold)

/-! ## Runtime model

The dynamic strategy owns a heap allocation through a `std::unique_ptr`.
We model the heap explicitly as a list of cells, one per allocation, so that
allocation counts, pointer identity and region release are observable:
a cell is `some bytes` while the region is live and `none` once released.
A `unique_ptr` is `none` (null, e.g. moved-from) or `some` heap address. -/

abbrev Heap : Type := List (Option (List Nat))

/-- Dereference a heap pointer: the live region at address `p`, if any. -/
def readPtr (h : Heap) (p : Nat) : Option (List Nat) :=
  match h[p]? with
  | some (some r) => some r
  | _ => none

/-- Overwrite the bytes of the region at address `p`. -/
def writePtr (h : Heap) (p : Nat) (r : List Nat) : Heap :=
  h.set p (some r)

/-- Release the region at address `p` (unique_ptr destructor / reset). -/
def freePtr (h : Heap) (p : Nat) : Heap :=
  h.set p none

/-- `std::make_unique<std::uint8_t[]>(n)`: a fresh zero-initialized region of
`n` bytes at a fresh address. -/
def alloc (h : Heap) (n : Nat) : Heap × Nat :=
  (h ++ [some (List.replicate n 0)], h.length)

/-- The storage member of the class: an inline `std::array` value (static
strategy) or a `std::unique_ptr` (dynamic strategy, null when moved-from). -/
inductive Store where
  | stat (a : List Nat)
  | dyn (p : Option Nat)
deriving DecidableEq

/-- A `SmartBuffer<Size, StaticThreshold>` object on a `w`-bit platform. -/
structure SmartBuffer (w size threshold : Nat) where
  buf : Store
deriving DecidableEq

/-- `std::fill_n(dst, n, v)` on a byte region (uint8_t stores `v % 256`). -/
def list_fill_n (v : Nat) : List Nat → Nat → List Nat
  | r, 0 => r
  | [], _ + 1 => []
  | _ :: xs, n + 1 => v % 256 :: list_fill_n v xs n

/-- `std::copy_n(src, n, dst)` on byte regions. -/
def list_copy_n : List Nat → Nat → List Nat → List Nat
  | _, 0, dst => dst
  | [], _ + 1, dst => dst
  | x :: xs, n + 1, dst =>
    match dst with
    | [] => []
    | _ :: ds => x :: list_copy_n xs n ds

namespace SmartBuffer

variable {w size threshold : Nat}

/-- Default constructor: the inline array is zero-filled in place; the heap
case allocates `ACTUAL_SIZE` bytes (zero-initialized by `make_unique`) and
zero-fills them with `std::fill_n`. -/
def mkDefault (w size threshold : Nat) (h : Heap) :
    Heap × SmartBuffer w size threshold :=
  if use_static w size threshold then
    (h, ⟨Store.stat (List.replicate (ACTUAL_SIZE w size) 0)⟩)
  else
    let ha := alloc h (ACTUAL_SIZE w size)
    (writePtr ha.1 ha.2
        (list_fill_n 0 (List.replicate (ACTUAL_SIZE w size) 0) (ACTUAL_SIZE w size)),
      ⟨Store.dyn (some ha.2)⟩)

/-- The data pointer's target: the whole backing region, `none` when the
pointer is null or dangling. -/
def dataRegion (h : Heap) (b : SmartBuffer w size threshold) :
    Option (List Nat) :=
  match b.buf with
  | Store.stat a => some a
  | Store.dyn none => none
  | Store.dyn (some p) => readPtr h p

/-- `buf[i]` (through `operator[]` / `data()`): `none` models a null
dereference or a read past the allocated region. -/
def readByte (h : Heap) (b : SmartBuffer w size threshold) (i : Nat) :
    Option Nat :=
  (dataRegion h b).bind fun r => r[i]?

/-- Replace the bytes of the backing region, keeping the storage kind. -/
def setRegion (h : Heap) (b : SmartBuffer w size threshold) (r : List Nat) :
    Heap × SmartBuffer w size threshold :=
  match b.buf with
  | Store.stat _ => (h, ⟨Store.stat r⟩)
  | Store.dyn none => (h, b)
  | Store.dyn (some p) => (writePtr h p r, b)

/-- `buf[i] = v` (through `operator[]`). -/
def writeByte (h : Heap) (b : SmartBuffer w size threshold) (i v : Nat) :
    Option (Heap × SmartBuffer w size threshold) :=
  match dataRegion h b with
  | none => none
  | some r =>
    if i < r.length then some (setRegion h b (r.set i (v % 256))) else none

/-- `fill(value)`: `std::fill_n(data(), Size, value)` — only the requested
size, not the padding. -/
def fill (h : Heap) (b : SmartBuffer w size threshold) (v : Nat) :
    Option (Heap × SmartBuffer w size threshold) :=
  match dataRegion h b with
  | none => none
  | some r =>
    if size ≤ r.length then some (setRegion h b (list_fill_n v r size))
    else none

/-- `clear()`: `fill(0)`. -/
def clear (h : Heap) (b : SmartBuffer w size threshold) :
    Option (Heap × SmartBuffer w size threshold) :=
  fill h b 0

/-- `fill_all(value)`: `std::fill_n(data(), ACTUAL_SIZE, value)`. -/
def fill_all (h : Heap) (b : SmartBuffer w size threshold) (v : Nat) :
    Option (Heap × SmartBuffer w size threshold) :=
  match dataRegion h b with
  | none => none
  | some r =>
    if ACTUAL_SIZE w size ≤ r.length then
      some (setRegion h b (list_fill_n v r (ACTUAL_SIZE w size)))
    else none

/-- `clear_all()`: `fill_all(0)`. -/
def clear_all (h : Heap) (b : SmartBuffer w size threshold) :
    Option (Heap × SmartBuffer w size threshold) :=
  fill_all h b 0

/-- Copy constructor: inline copies the array value; the heap case allocates a
fresh region with `make_unique` and copies `ACTUAL_SIZE` bytes from the source
region (`none` models the undefined null/dangling source dereference). -/
def copyCtor (h : Heap) (o : SmartBuffer w size threshold) :
    Option (Heap × SmartBuffer w size threshold) :=
  match o.buf with
  | Store.stat a => some (h, ⟨Store.stat a⟩)
  | Store.dyn none => none
  | Store.dyn (some p) =>
    match readPtr h p with
    | none => none
    | some src =>
      let ha := alloc h (ACTUAL_SIZE w size)
      some (writePtr ha.1 ha.2
          (list_copy_n src (ACTUAL_SIZE w size)
            (List.replicate (ACTUAL_SIZE w size) 0)),
        ⟨Store.dyn (some ha.2)⟩)

/-- Move constructor: inline moves the `std::array` (an element-wise uint8_t
move, which copies and leaves the source bytes in place); the heap case
transfers the `unique_ptr`, nulling the source.  No heap interaction at all.
Returns (new buffer, source after the move). -/
def moveCtor (o : SmartBuffer w size threshold) :
    SmartBuffer w size threshold × SmartBuffer w size threshold :=
  match o.buf with
  | Store.stat a => (⟨Store.stat a⟩, ⟨Store.stat a⟩)
  | Store.dyn p => (⟨Store.dyn p⟩, ⟨Store.dyn none⟩)

/-- Copy assignment.  `same` models the `this != &other` address check: when
true the operands are one object and the body is skipped.  Inline copies the
array; the heap case allocates only if the target's pointer is null, then
copies `ACTUAL_SIZE` bytes into the target's region. -/
def copyAssign (same : Bool) (h : Heap)
    (dst src : SmartBuffer w size threshold) :
    Option (Heap × SmartBuffer w size threshold) :=
  if same then some (h, dst)
  else
    match dst.buf, src.buf with
    | Store.stat _, Store.stat a => some (h, ⟨Store.stat a⟩)
    | Store.dyn dp, Store.dyn (some sp) =>
      let hq : Heap × Nat :=
        match dp with
        | none => alloc h (ACTUAL_SIZE w size)
        | some q => (h, q)
      match readPtr hq.1 sp, readPtr hq.1 hq.2 with
      | some srcR, some dstR =>
        some (writePtr hq.1 hq.2 (list_copy_n srcR (ACTUAL_SIZE w size) dstR),
          ⟨Store.dyn (some hq.2)⟩)
      | _, _ => none
    | _, _ => none

/-- Move assignment.  `same` models the `this != &other` check.  Inline:
`std::array` move assignment copies elements, leaving the source bytes; heap:
`unique_ptr` move assignment releases the target's old region and takes the
source's pointer, nulling the source.
Returns (heap, target after, source after). -/
def moveAssign (same : Bool) (h : Heap)
    (dst src : SmartBuffer w size threshold) :
    Heap × SmartBuffer w size threshold × SmartBuffer w size threshold :=
  if same then (h, dst, src)
  else
    match dst.buf, src.buf with
    | Store.stat _, Store.stat a => (h, ⟨Store.stat a⟩, ⟨Store.stat a⟩)
    | Store.dyn dp, Store.dyn sp =>
      let h1 : Heap :=
        match dp with
        | none => h
        | some q => freePtr h q
      (h1, ⟨Store.dyn sp⟩, ⟨Store.dyn none⟩)
    | _, _ => (h, dst, src)

/-- A non-moved-from buffer: the storage kind matches `use_static` and the
backing region is live with length `ACTUAL_SIZE` — the data-model invariant
for handles that may be read. -/
def wfB (h : Heap) (b : SmartBuffer w size threshold) : Bool :=
  match b.buf with
  | Store.stat a =>
    use_static w size threshold && a.length == ACTUAL_SIZE w size
  | Store.dyn none => false
  | Store.dyn (some p) =>
    !use_static w size threshold &&
      match readPtr h p with
      | some r => r.length == ACTUAL_SIZE w size
      | none => false

/-- Like `wfB` but also admitting a moved-from (null) dynamic buffer. -/
def shapeB (h : Heap) (b : SmartBuffer w size threshold) : Bool :=
  match b.buf with
  | Store.stat a =>
    use_static w size threshold && a.length == ACTUAL_SIZE w size
  | Store.dyn none => !use_static w size threshold
  | Store.dyn (some p) =>
    !use_static w size threshold &&
      match readPtr h p with
      | some r => r.length == ACTUAL_SIZE w size
      | none => false

end SmartBuffer

/-- Masking a w-bit value with `~7` clears the low three bits,
i.e. rounds down to a multiple of 8. -/
theorem land_mask (w a : Nat) (hw : 3 ≤ w) (ha : a < 2 ^ w) :
    a &&& (2 ^ w - 1 - 7) = a / 8 * 8 := by
  have hsplit : 2 ^ (w - 3) * 8 = 2 ^ w := by
    have h3 : (8 : Nat) = 2 ^ 3 := by norm_num
    rw [h3, ← Nat.pow_add]
    congr 1
    omega
  have h1 : (1 : Nat) ≤ 2 ^ (w - 3) := Nat.one_le_two_pow
  have hmask : 2 ^ w - 1 - 7 = (2 ^ (w - 3) - 1) <<< 3 := by
    rw [Nat.shiftLeft_eq]
    have h2 : (2 : Nat) ^ 3 = 8 := by norm_num
    rw [h2]
    omega
  have hdiv : a / 8 * 8 = (a >>> 3) <<< 3 := by
    rw [Nat.shiftRight_eq_div_pow, Nat.shiftLeft_eq]
  rw [hmask, hdiv]
  apply Nat.eq_of_testBit_eq
  intro i
  rw [Nat.testBit_land]
  simp only [Nat.testBit_shiftLeft, Nat.testBit_shiftRight, Nat.testBit_two_pow_sub_one]
  by_cases h3 : 3 ≤ i
  · by_cases hiw : i < w
    · have e1 : 3 + (i - 3) = i := by omega
      have e2 : i - 3 < w - 3 := by omega
      simp [ge_iff_le, h3, e1, e2]
    · have hlt : a < 2 ^ i :=
        lt_of_lt_of_le ha (Nat.pow_le_pow_right (by norm_num) (by omega))
      have hfalse : a.testBit i = false := Nat.testBit_lt_two_pow hlt
      have e2 : ¬ (i - 3 < w - 3) := by omega
      simp [ge_iff_le, h3, e2, hfalse]
  · simp [ge_iff_le, h3]

/-- The rounded size is the machine-arithmetic value of `((s + 7) / 8) * 8`. -/
theorem round_up_to_8_eq_div_mul (w s : Nat) (hw : 3 ≤ w) :
    round_up_to_8 w s = ((s + 7) % 2 ^ w) / 8 * 8 := by
  unfold round_up_to_8
  exact land_mask w _ hw (Nat.mod_lt _ (Nat.two_pow_pos w))

/-- C1 as stated is false: at `n = 2 ^ 64 - 1` (SIZE_MAX on a 64-bit platform)
the sum `n + 7` wraps around, `round_up_to_8` returns 0, and the contract
clause `result ≥ n` fails. -/
theorem C1_counterexample :
    round_up_to_8 64 (2 ^ 64 - 1) = 0 ∧
      ¬ (2 ^ 64 - 1 ≤ round_up_to_8 64 (2 ^ 64 - 1)) := by
  constructor
  · decide
  · decide

/-- C1 (amended): for every size `n` whose increment `n + 7` does not overflow
the w-bit word (equivalently `n ≤ 2 ^ w - 8`), `round_up_to_8 w n` is at least
`n`, is a multiple of 8, and exceeds `n` by less than 8. -/
theorem C1_round_up_contract (w n : Nat) (hw : 3 ≤ w) (hn : n + 7 < 2 ^ w) :
    n ≤ round_up_to_8 w n ∧ round_up_to_8 w n % 8 = 0 ∧
      round_up_to_8 w n - n < 8 := by
  have ha : (n + 7) % 2 ^ w = n + 7 := Nat.mod_eq_of_lt hn
  unfold round_up_to_8
  rw [ha, land_mask w (n + 7) hw hn]
  omega

/-- Witness for C1 at `w = 64`, `n = 13`. -/
theorem C1_round_up_contract_witness :
    (3 ≤ 64 ∧ 13 + 7 < 2 ^ 64) ∧
      (13 ≤ round_up_to_8 64 13 ∧ round_up_to_8 64 13 % 8 = 0 ∧
        round_up_to_8 64 13 - 13 < 8) :=
  ⟨⟨by decide, by decide⟩, C1_round_up_contract 64 13 (by decide) (by decide)⟩

/-- C2: with machine (size_t) arithmetic on both sides,
`ACTUAL_SIZE(s) = ((s + 7) / 8) * 8` for every size, the buffer is inline
exactly when `ACTUAL_SIZE(s) ≤ threshold`, and the concrete instances from the
spec hold on a 64-bit platform: size 32 is inline and size 33 rounds to 40 and
is heap-allocated at threshold 32; size 64 is inline and size 65 rounds to 72
and is heap-allocated at threshold 64. -/
theorem C2_actual_size_and_inline (w s : Nat) (hw : 3 ≤ w) :
    ACTUAL_SIZE w s = ((s + 7) % 2 ^ w) / 8 * 8
    ∧ (use_static w s 32 = true ↔ ACTUAL_SIZE w s ≤ 32)
    ∧ use_static 64 32 32 = true
    ∧ ACTUAL_SIZE 64 33 = 40 ∧ use_static 64 33 32 = false
    ∧ use_static 64 64 64 = true
    ∧ ACTUAL_SIZE 64 65 = 72 ∧ use_static 64 65 64 = false := by
  refine ⟨round_up_to_8_eq_div_mul w s hw, ?_, by decide, by decide, by decide,
    by decide, by decide, by decide⟩
  simp [use_static]

/-- Witness for C2 at `w = 64`, `s = 5`. -/
theorem C2_actual_size_and_inline_witness :
    3 ≤ 64 ∧
      (ACTUAL_SIZE 64 5 = ((5 + 7) % 2 ^ 64) / 8 * 8
      ∧ (use_static 64 5 32 = true ↔ ACTUAL_SIZE 64 5 ≤ 32)
      ∧ use_static 64 32 32 = true
      ∧ ACTUAL_SIZE 64 33 = 40 ∧ use_static 64 33 32 = false
      ∧ use_static 64 64 64 = true
      ∧ ACTUAL_SIZE 64 65 = 72 ∧ use_static 64 65 64 = false) :=
  ⟨by decide, C2_actual_size_and_inline 64 5 (by decide)⟩

/-- C3 as stated is false: with threshold 0 and requested size 0 the code picks
the inline (static) strategy, because `ACTUAL_SIZE = 0 ≤ 0`; so threshold 0
does not make every size heap-allocated. -/
theorem C3_counterexample : use_static 64 0 0 = true := by decide

/-- C3 (amended): threshold 0 forces the heap strategy for every size with a
nonzero rounded size (every `s` with `1 ≤ s` and `s + 7 < 2 ^ w`); threshold
`2 ^ w - 1` (the maximum representable size) forces the inline strategy for
every size. -/
theorem C3_thresholds (w s : Nat) (hw : 3 ≤ w) :
    (1 ≤ s → s + 7 < 2 ^ w → use_static w s 0 = false)
    ∧ use_static w s (2 ^ w - 1) = true := by
  have h2 : 0 < 2 ^ w := Nat.two_pow_pos w
  have hA : ACTUAL_SIZE w s = ((s + 7) % 2 ^ w) / 8 * 8 :=
    round_up_to_8_eq_div_mul w s hw
  constructor
  · intro h1 hov
    have hmod : (s + 7) % 2 ^ w = s + 7 := Nat.mod_eq_of_lt hov
    rw [hmod] at hA
    simp only [use_static, hA, decide_eq_false_iff_not]
    omega
  · simp only [use_static, hA, decide_eq_true_eq]
    have ha : (s + 7) % 2 ^ w < 2 ^ w := Nat.mod_lt _ h2
    omega

/-- Witness for C3 at `w = 64`, `s = 3`. -/
theorem C3_thresholds_witness :
    3 ≤ 64 ∧
      ((1 ≤ 3 → 3 + 7 < 2 ^ 64 → use_static 64 3 0 = false)
      ∧ use_static 64 3 (2 ^ 64 - 1) = true) :=
  ⟨by decide, C3_thresholds 64 3 (by decide)⟩


/-! ## Helper lemmas about the region primitives -/

theorem list_fill_n_length (v : Nat) (r : List Nat) (n : Nat) :
    (list_fill_n v r n).length = r.length := by
  induction r generalizing n with
  | nil => cases n <;> simp [list_fill_n]
  | cons x xs ih => cases n <;> simp [list_fill_n, ih]

theorem list_fill_n_getElem? (v : Nat) (r : List Nat) (n i : Nat) :
    (list_fill_n v r n)[i]? =
      if i < n ∧ i < r.length then some (v % 256) else r[i]? := by
  induction r generalizing n i with
  | nil => cases n <;> simp [list_fill_n]
  | cons x xs ih =>
    cases n with
    | zero => simp [list_fill_n]
    | succ m =>
      cases i with
      | zero => simp [list_fill_n]
      | succ j =>
        simp [list_fill_n, ih, Nat.succ_lt_succ_iff]

theorem list_copy_n_length (src : List Nat) (n : Nat) (dst : List Nat) :
    (list_copy_n src n dst).length = dst.length := by
  induction src generalizing n dst with
  | nil => cases n <;> simp [list_copy_n]
  | cons x xs ih =>
    cases n with
    | zero => simp [list_copy_n]
    | succ m =>
      cases dst with
      | nil => simp [list_copy_n]
      | cons d ds => simp [list_copy_n, ih]

theorem list_copy_n_getElem? (src : List Nat) (n : Nat) (dst : List Nat)
    (i : Nat) :
    (list_copy_n src n dst)[i]? =
      if i < n ∧ i < src.length ∧ i < dst.length then src[i]? else dst[i]? := by
  induction src generalizing n dst i with
  | nil => cases n <;> simp [list_copy_n]
  | cons x xs ih =>
    cases n with
    | zero => simp [list_copy_n]
    | succ m =>
      cases dst with
      | nil => simp [list_copy_n]
      | cons d ds =>
        cases i with
        | zero => simp [list_copy_n]
        | succ j =>
          simp [list_copy_n, ih, Nat.succ_lt_succ_iff]

theorem readPtr_writePtr_self (h : Heap) (p : Nat) (r : List Nat)
    (hp : p < h.length) :
    readPtr (writePtr h p r) p = some r := by
  simp [readPtr, writePtr, List.getElem?_set_self hp]

theorem readPtr_writePtr_ne (h : Heap) (p q : Nat) (r : List Nat)
    (hne : p ≠ q) :
    readPtr (writePtr h p r) q = readPtr h q := by
  simp [readPtr, writePtr, List.getElem?_set_ne hne]

theorem readPtr_lt_length (h : Heap) (p : Nat) (r : List Nat)
    (hr : readPtr h p = some r) : p < h.length := by
  by_contra hcontra
  have : h[p]? = none := List.getElem?_eq_none (by omega)
  simp [readPtr, this] at hr

theorem readPtr_append_lt (h : Heap) (c : Option (List Nat)) (q : Nat)
    (hq : q < h.length) :
    readPtr (h ++ [c]) q = readPtr h q := by
  simp [readPtr, List.getElem?_append_left hq]

theorem readPtr_append_self (h : Heap) (r : List Nat) :
    readPtr (h ++ [some r]) h.length = some r := by
  simp [readPtr, List.getElem?_concat_length]

/-- C4: a default-constructed buffer of any size and threshold has all of its
`ACTUAL_SIZE` bytes — logical bytes and padding alike — equal to 0, in both
the inline and the heap case. -/
theorem C4_default_zero (w size threshold : Nat) (h : Heap) (i : Nat)
    (hi : i < ACTUAL_SIZE w size) :
    SmartBuffer.readByte (SmartBuffer.mkDefault w size threshold h).1
      (SmartBuffer.mkDefault w size threshold h).2 i = some 0 := by
  unfold SmartBuffer.mkDefault
  by_cases hus : use_static w size threshold = true
  · simp [hus, SmartBuffer.readByte, SmartBuffer.dataRegion,
      List.getElem?_replicate, hi]
  · have hlen :
        h.length < (h ++ [some (List.replicate (ACTUAL_SIZE w size) 0)]).length := by
      simp
    simp only [hus, Bool.false_eq_true, if_false, SmartBuffer.readByte,
      SmartBuffer.dataRegion, alloc]
    rw [writePtr, readPtr]
    simp only [List.getElem?_set_self hlen]
    simp [list_fill_n_getElem?, hi, List.getElem?_replicate]

/-- Witness for C4: the heap case `SmartBuffer<64>` (threshold 32), byte 63. -/
theorem C4_default_zero_witness :
    63 < ACTUAL_SIZE 64 64 ∧
      SmartBuffer.readByte (SmartBuffer.mkDefault 64 64 32 []).1
        (SmartBuffer.mkDefault 64 64 32 []).2 63 = some 0 :=
  ⟨by decide, C4_default_zero 64 64 32 [] 63 (by decide)⟩

/-! ## Frame lemmas: mutations touch only their own region -/

namespace SmartBuffer

/-- Replacing the region of `bmut` does not change what `bread` reads, as long
as the two buffers do not share a heap address (inline buffers never alias
anything through the heap). -/
theorem setRegion_frame (h : Heap) (bmut bread : SmartBuffer w size threshold)
    (r' : List Nat) (i : Nat)
    (hsep : ∀ p q, bmut.buf = Store.dyn (some p) →
      bread.buf = Store.dyn (some q) → p ≠ q) :
    readByte (setRegion h bmut r').1 bread i = readByte h bread i := by
  cases hm : bmut.buf with
  | stat a => simp [setRegion, hm]
  | dyn pm =>
    cases pm with
    | none => simp [setRegion, hm]
    | some p =>
      cases hr : bread.buf with
      | stat a => simp [setRegion, hm, readByte, dataRegion, hr]
      | dyn pr =>
        cases pr with
        | none => simp [setRegion, hm, readByte, dataRegion, hr]
        | some q =>
          have hne : p ≠ q := hsep p q hm hr
          simp [setRegion, hm, readByte, dataRegion, hr,
            readPtr_writePtr_ne _ _ _ _ hne]

/-- A successful `writeByte` is a `setRegion` with the updated bytes. -/
theorem writeByte_eq_setRegion (h : Heap) (b : SmartBuffer w size threshold)
    (j v : Nat) (h2 : Heap) (c2 : SmartBuffer w size threshold)
    (hw : writeByte h b j v = some (h2, c2)) :
    ∃ r', setRegion h b r' = (h2, c2) := by
  unfold writeByte at hw
  cases hd : dataRegion h b with
  | none => rw [hd] at hw; exact absurd hw (by simp)
  | some r =>
    rw [hd] at hw
    have hw2 : (if j < r.length then some (setRegion h b (r.set j (v % 256)))
        else none) = some (h2, c2) := hw
    by_cases hj : j < r.length
    · rw [if_pos hj] at hw2
      exact ⟨r.set j (v % 256), by injection hw2⟩
    · rw [if_neg hj] at hw2
      exact absurd hw2 (by simp)

/-- A successful `fill` is a `setRegion` with the filled bytes. -/
theorem fill_eq_setRegion (h : Heap) (b : SmartBuffer w size threshold)
    (v : Nat) (h2 : Heap) (c2 : SmartBuffer w size threshold)
    (hw : fill h b v = some (h2, c2)) :
    ∃ r', setRegion h b r' = (h2, c2) := by
  unfold fill at hw
  cases hd : dataRegion h b with
  | none => rw [hd] at hw; exact absurd hw (by simp)
  | some r =>
    rw [hd] at hw
    have hw2 : (if size ≤ r.length then some (setRegion h b (list_fill_n v r size))
        else none) = some (h2, c2) := hw
    by_cases hs : size ≤ r.length
    · rw [if_pos hs] at hw2
      exact ⟨list_fill_n v r size, by injection hw2⟩
    · rw [if_neg hs] at hw2
      exact absurd hw2 (by simp)

/-- After `setRegion`, the resulting buffer reads exactly the new bytes
(provided the original buffer had a live region). -/
theorem readByte_setRegion_self (h : Heap) (b : SmartBuffer w size threshold)
    (r r' : List Nat) (hd : dataRegion h b = some r) (i : Nat) :
    readByte (setRegion h b r').1 (setRegion h b r').2 i = r'[i]? := by
  cases hb : b.buf with
  | stat a => simp [setRegion, hb, readByte, dataRegion]
  | dyn p =>
    cases p with
    | none => rw [dataRegion, hb] at hd; exact absurd hd (by simp)
    | some p =>
      have hrp : readPtr h p = some r := by
        rw [dataRegion, hb] at hd; exact hd
      have hp : p < h.length := readPtr_lt_length h p r hrp
      simp [setRegion, hb, readByte, dataRegion,
        readPtr_writePtr_self _ _ _ hp]

/-- A live (`wfB`) buffer has a backing region of length `ACTUAL_SIZE`. -/
theorem wfB_dataRegion (h : Heap) (b : SmartBuffer w size threshold)
    (hwf : wfB h b = true) :
    ∃ r, dataRegion h b = some r ∧ r.length = ACTUAL_SIZE w size := by
  cases hb : b.buf with
  | stat a =>
    rw [wfB, hb] at hwf
    simp only [Bool.and_eq_true, beq_iff_eq] at hwf
    exact ⟨a, by simp [dataRegion, hb], hwf.2⟩
  | dyn p =>
    cases p with
    | none => rw [wfB, hb] at hwf; exact absurd hwf (by simp)
    | some p =>
      rw [wfB, hb] at hwf
      have hwf2 : (!use_static w size threshold &&
          match readPtr h p with
          | some r => r.length == ACTUAL_SIZE w size
          | none => false) = true := hwf
      cases hr : readPtr h p with
      | none => rw [hr] at hwf2; exact absurd hwf2 (by simp)
      | some r =>
        rw [hr] at hwf2
        simp only [Bool.and_eq_true, beq_iff_eq] at hwf2
        exact ⟨r, by simp [dataRegion, hb, hr], hwf2.2⟩

end SmartBuffer

/-- C7: self-copy-assignment and self-move-assignment (the `this == &other`
branch of each operator) leave the heap and the buffer exactly as they were:
every byte is preserved, the buffer keeps its single backing region, and no
region is released at all, let alone twice. -/
theorem C7_self_assign (w size threshold : Nat) (h : Heap)
    (b : SmartBuffer w size threshold) :
    SmartBuffer.copyAssign true h b b = some (h, b)
    ∧ SmartBuffer.moveAssign true h b b = (h, b, b)
    ∧ (∀ i, SmartBuffer.readByte (SmartBuffer.moveAssign true h b b).1
        (SmartBuffer.moveAssign true h b b).2.1 i
          = SmartBuffer.readByte h b i) := by
  refine ⟨?_, ?_, fun i => ?_⟩ <;>
    simp [SmartBuffer.copyAssign, SmartBuffer.moveAssign]

/-- C10: for inline (static-strategy) buffers, move construction and move
assignment leave the moved-from source's bytes unchanged at every index: the
`std::array` "move" is an element-wise `uint8_t` copy. -/
theorem C10_inline_move_keeps_source (w size threshold : Nat) (h : Heap)
    (d b : SmartBuffer w size threshold) (a ad : List Nat)
    (hb : b.buf = Store.stat a) (hd : d.buf = Store.stat ad) :
    (∀ i, SmartBuffer.readByte h (SmartBuffer.moveCtor b).2 i
        = SmartBuffer.readByte h b i)
    ∧ (∀ i, SmartBuffer.readByte (SmartBuffer.moveAssign false h d b).1
        (SmartBuffer.moveAssign false h d b).2.2 i
          = SmartBuffer.readByte h b i) := by
  refine ⟨fun i => ?_, fun i => ?_⟩
  · simp [SmartBuffer.moveCtor, hb, SmartBuffer.readByte, SmartBuffer.dataRegion]
  · simp [SmartBuffer.moveAssign, hb, hd, SmartBuffer.readByte,
      SmartBuffer.dataRegion]

/-- Witness for C10: two inline `SmartBuffer<2>` objects. -/
theorem C10_inline_move_keeps_source_witness :
    ((⟨Store.stat [1, 2, 0, 0, 0, 0, 0, 0]⟩ :
        SmartBuffer 64 2 32).buf = Store.stat [1, 2, 0, 0, 0, 0, 0, 0]
      ∧ (⟨Store.stat [3, 4, 0, 0, 0, 0, 0, 0]⟩ :
        SmartBuffer 64 2 32).buf = Store.stat [3, 4, 0, 0, 0, 0, 0, 0])
    ∧ ((∀ i, SmartBuffer.readByte []
          (SmartBuffer.moveCtor
            (⟨Store.stat [1, 2, 0, 0, 0, 0, 0, 0]⟩ : SmartBuffer 64 2 32)).2 i
        = SmartBuffer.readByte []
            (⟨Store.stat [1, 2, 0, 0, 0, 0, 0, 0]⟩ : SmartBuffer 64 2 32) i)
      ∧ (∀ i, SmartBuffer.readByte
          (SmartBuffer.moveAssign false []
            (⟨Store.stat [3, 4, 0, 0, 0, 0, 0, 0]⟩ : SmartBuffer 64 2 32)
            (⟨Store.stat [1, 2, 0, 0, 0, 0, 0, 0]⟩ : SmartBuffer 64 2 32)).1
          (SmartBuffer.moveAssign false []
            (⟨Store.stat [3, 4, 0, 0, 0, 0, 0, 0]⟩ : SmartBuffer 64 2 32)
            (⟨Store.stat [1, 2, 0, 0, 0, 0, 0, 0]⟩ : SmartBuffer 64 2 32)).2.2 i
        = SmartBuffer.readByte []
            (⟨Store.stat [1, 2, 0, 0, 0, 0, 0, 0]⟩ : SmartBuffer 64 2 32) i)) :=
  ⟨⟨rfl, rfl⟩,
    C10_inline_move_keeps_source 64 2 32 [] _ _ _ _ rfl rfl⟩

/-- C6: if byte `i` of a buffer reads `v`, then after move construction the
new buffer's byte `i` still reads `v`; in the heap case the region pointer is
transferred verbatim (the operation takes no heap step: nothing is allocated
and no bytes are copied through the heap). -/
theorem C6_move_preserves_bytes (w size threshold : Nat) (h : Heap)
    (b : SmartBuffer w size threshold) (i v : Nat)
    (hread : SmartBuffer.readByte h b i = some v) :
    SmartBuffer.readByte h (SmartBuffer.moveCtor b).1 i = some v
    ∧ (∀ p, b.buf = Store.dyn (some p) →
        (SmartBuffer.moveCtor b).1.buf = Store.dyn (some p)) := by
  constructor
  · cases hb : b.buf with
    | stat a =>
      simpa [SmartBuffer.moveCtor, hb, SmartBuffer.readByte,
        SmartBuffer.dataRegion] using hread
    | dyn p =>
      simpa [SmartBuffer.moveCtor, hb, SmartBuffer.readByte,
        SmartBuffer.dataRegion] using hread
  · intro p hp
    simp [SmartBuffer.moveCtor, hp]

/-- Witness for C6: a heap `SmartBuffer<8>` (threshold 0) with byte 0 set
to 7. -/
theorem C6_move_preserves_bytes_witness :
    SmartBuffer.readByte [some [7, 0, 0, 0, 0, 0, 0, 0]]
      (⟨Store.dyn (some 0)⟩ : SmartBuffer 64 8 0) 0 = some 7
    ∧ (SmartBuffer.readByte [some [7, 0, 0, 0, 0, 0, 0, 0]]
        (SmartBuffer.moveCtor
          (⟨Store.dyn (some 0)⟩ : SmartBuffer 64 8 0)).1 0 = some 7
      ∧ (∀ p, (⟨Store.dyn (some 0)⟩ : SmartBuffer 64 8 0).buf
            = Store.dyn (some p) →
          (SmartBuffer.moveCtor
            (⟨Store.dyn (some 0)⟩ : SmartBuffer 64 8 0)).1.buf
              = Store.dyn (some p))) :=
  ⟨by decide, C6_move_preserves_bytes 64 8 0 _ _ 0 7 (by decide)⟩

/-- C5: copy-constructing a non-moved-from buffer succeeds and yields a buffer
with the same bytes on the requested range; the construction leaves the source
unchanged, and the two buffers are independent afterwards: writing a byte or
filling either one (and `clear` is `fill 0`) never changes a byte of the other
— in the heap case the copy lives in a freshly allocated, distinct region. -/
theorem C5_copy_independent (w size threshold : Nat) (h : Heap)
    (b : SmartBuffer w size threshold)
    (hwf : SmartBuffer.wfB h b = true) :
    ∃ h1 c, SmartBuffer.copyCtor h b = some (h1, c)
    ∧ (∀ i, i < size → SmartBuffer.readByte h1 c i = SmartBuffer.readByte h b i)
    ∧ (∀ i, SmartBuffer.readByte h1 b i = SmartBuffer.readByte h b i)
    ∧ (∀ j v h2 c2, SmartBuffer.writeByte h1 c j v = some (h2, c2) →
        ∀ i, SmartBuffer.readByte h2 b i = SmartBuffer.readByte h1 b i)
    ∧ (∀ j v h2 b2, SmartBuffer.writeByte h1 b j v = some (h2, b2) →
        ∀ i, SmartBuffer.readByte h2 c i = SmartBuffer.readByte h1 c i)
    ∧ (∀ v h2 c2, SmartBuffer.fill h1 c v = some (h2, c2) →
        ∀ i, SmartBuffer.readByte h2 b i = SmartBuffer.readByte h1 b i)
    ∧ (∀ v h2 b2, SmartBuffer.fill h1 b v = some (h2, b2) →
        ∀ i, SmartBuffer.readByte h2 c i = SmartBuffer.readByte h1 c i) := by
  cases hb : b.buf with
  | stat a =>
    refine ⟨h, ⟨Store.stat a⟩, by simp [SmartBuffer.copyCtor, hb],
      ?_, ?_, ?_, ?_, ?_, ?_⟩
    · intro i _
      simp [SmartBuffer.readByte, SmartBuffer.dataRegion, hb]
    · intro i; rfl
    · intro j v h2 c2 _ i
      simp [SmartBuffer.readByte, SmartBuffer.dataRegion, hb]
    · intro j v h2 b2 _ i
      simp [SmartBuffer.readByte, SmartBuffer.dataRegion]
    · intro v h2 c2 _ i
      simp [SmartBuffer.readByte, SmartBuffer.dataRegion, hb]
    · intro v h2 b2 _ i
      simp [SmartBuffer.readByte, SmartBuffer.dataRegion]
  | dyn pOpt =>
    cases pOpt with
    | none => rw [SmartBuffer.wfB, hb] at hwf; exact absurd hwf (by simp)
    | some p =>
      rw [SmartBuffer.wfB, hb] at hwf
      have hwf2 : (!use_static w size threshold &&
          match readPtr h p with
          | some r => r.length == ACTUAL_SIZE w size
          | none => false) = true := hwf
      cases hr : readPtr h p with
      | none => rw [hr] at hwf2; exact absurd hwf2 (by simp)
      | some r =>
        rw [hr] at hwf2
        simp only [Bool.and_eq_true, beq_iff_eq] at hwf2
        have hlen : r.length = ACTUAL_SIZE w size := hwf2.2
        have hp : p < h.length := readPtr_lt_length h p r hr
        refine ⟨writePtr (h ++ [some (List.replicate (ACTUAL_SIZE w size) 0)])
            h.length
            (list_copy_n r (ACTUAL_SIZE w size)
              (List.replicate (ACTUAL_SIZE w size) 0)),
          ⟨Store.dyn (some h.length)⟩,
          by simp [SmartBuffer.copyCtor, hb, hr, alloc], ?_⟩
        have hqlt : h.length <
            (h ++ [some (List.replicate (ACTUAL_SIZE w size) 0)]).length := by
          simp
        have hRq : readPtr
            (writePtr (h ++ [some (List.replicate (ACTUAL_SIZE w size) 0)])
              h.length
              (list_copy_n r (ACTUAL_SIZE w size)
                (List.replicate (ACTUAL_SIZE w size) 0)))
            h.length
            = some (list_copy_n r (ACTUAL_SIZE w size)
                (List.replicate (ACTUAL_SIZE w size) 0)) :=
          readPtr_writePtr_self _ _ _ hqlt
        have hqp : h.length ≠ p := by omega
        have hbp : readPtr
            (writePtr (h ++ [some (List.replicate (ACTUAL_SIZE w size) 0)])
              h.length
              (list_copy_n r (ACTUAL_SIZE w size)
                (List.replicate (ACTUAL_SIZE w size) 0)))
            p = some r := by
          rw [readPtr_writePtr_ne _ _ _ _ hqp, readPtr_append_lt _ _ _ hp, hr]
        have hRr : ∀ i : Nat, (list_copy_n r (ACTUAL_SIZE w size)
            (List.replicate (ACTUAL_SIZE w size) (0 : Nat)))[i]? = r[i]? := by
          intro i
          rw [list_copy_n_getElem?]
          by_cases hi : i < ACTUAL_SIZE w size
          · simp [hi, hlen]
          · have hnone : r[i]? = none := List.getElem?_eq_none (by omega)
            have hznone :
                (List.replicate (ACTUAL_SIZE w size) (0 : Nat))[i]? = none :=
              List.getElem?_eq_none (by simp; omega)
            simp [hi, hnone, hznone]
        have hsep_cb : ∀ pc qb,
            (⟨Store.dyn (some h.length)⟩ :
              SmartBuffer w size threshold).buf = Store.dyn (some pc) →
            b.buf = Store.dyn (some qb) → pc ≠ qb := by
          intro pc qb hc hbb
          rw [hb] at hbb
          simp only [Store.dyn.injEq, Option.some.injEq] at hc hbb
          omega
        have hsep_bc : ∀ pb qc,
            b.buf = Store.dyn (some pb) →
            (⟨Store.dyn (some h.length)⟩ :
              SmartBuffer w size threshold).buf = Store.dyn (some qc) →
            pb ≠ qc := by
          intro pb qc hbb hc
          rw [hb] at hbb
          simp only [Store.dyn.injEq, Option.some.injEq] at hc hbb
          omega
        refine ⟨?_, ?_, ?_, ?_, ?_, ?_⟩
        · intro i _
          simp [SmartBuffer.readByte, SmartBuffer.dataRegion, hb, hr, hRq, hRr i]
        · intro i
          simp [SmartBuffer.readByte, SmartBuffer.dataRegion, hb, hr, hbp]
        · intro j v h2 c2 hwv i
          obtain ⟨r', hset⟩ :=
            SmartBuffer.writeByte_eq_setRegion _ _ _ _ _ _ hwv
          have h2eq : _ = h2 := congrArg Prod.fst hset
          rw [← h2eq]
          exact SmartBuffer.setRegion_frame _ _ _ _ _ hsep_cb
        · intro j v h2 b2 hwv i
          obtain ⟨r', hset⟩ :=
            SmartBuffer.writeByte_eq_setRegion _ _ _ _ _ _ hwv
          have h2eq : _ = h2 := congrArg Prod.fst hset
          rw [← h2eq]
          exact SmartBuffer.setRegion_frame _ _ _ _ _ hsep_bc
        · intro v h2 c2 hwv i
          obtain ⟨r', hset⟩ := SmartBuffer.fill_eq_setRegion _ _ _ _ _ hwv
          have h2eq : _ = h2 := congrArg Prod.fst hset
          rw [← h2eq]
          exact SmartBuffer.setRegion_frame _ _ _ _ _ hsep_cb
        · intro v h2 b2 hwv i
          obtain ⟨r', hset⟩ := SmartBuffer.fill_eq_setRegion _ _ _ _ _ hwv
          have h2eq : _ = h2 := congrArg Prod.fst hset
          rw [← h2eq]
          exact SmartBuffer.setRegion_frame _ _ _ _ _ hsep_bc

/-- Witness for C5: a heap `SmartBuffer<8>` (threshold 0) with live region
`[1..8]` at heap address 0. -/
theorem C5_copy_independent_witness :
    SmartBuffer.wfB [some [1, 2, 3, 4, 5, 6, 7, 8]]
      (⟨Store.dyn (some 0)⟩ : SmartBuffer 64 8 0) = true
    ∧ (∃ h1 c, SmartBuffer.copyCtor [some [1, 2, 3, 4, 5, 6, 7, 8]]
          (⟨Store.dyn (some 0)⟩ : SmartBuffer 64 8 0) = some (h1, c)
      ∧ (∀ i, i < 8 → SmartBuffer.readByte h1 c i
          = SmartBuffer.readByte [some [1, 2, 3, 4, 5, 6, 7, 8]]
              (⟨Store.dyn (some 0)⟩ : SmartBuffer 64 8 0) i)
      ∧ (∀ i, SmartBuffer.readByte h1
            (⟨Store.dyn (some 0)⟩ : SmartBuffer 64 8 0) i
          = SmartBuffer.readByte [some [1, 2, 3, 4, 5, 6, 7, 8]]
              (⟨Store.dyn (some 0)⟩ : SmartBuffer 64 8 0) i)
      ∧ (∀ j v h2 c2, SmartBuffer.writeByte h1 c j v = some (h2, c2) →
          ∀ i, SmartBuffer.readByte h2
              (⟨Store.dyn (some 0)⟩ : SmartBuffer 64 8 0) i
            = SmartBuffer.readByte h1
                (⟨Store.dyn (some 0)⟩ : SmartBuffer 64 8 0) i)
      ∧ (∀ j v h2 b2, SmartBuffer.writeByte h1
            (⟨Store.dyn (some 0)⟩ : SmartBuffer 64 8 0) j v = some (h2, b2) →
          ∀ i, SmartBuffer.readByte h2 c i = SmartBuffer.readByte h1 c i)
      ∧ (∀ v h2 c2, SmartBuffer.fill h1 c v = some (h2, c2) →
          ∀ i, SmartBuffer.readByte h2
              (⟨Store.dyn (some 0)⟩ : SmartBuffer 64 8 0) i
            = SmartBuffer.readByte h1
                (⟨Store.dyn (some 0)⟩ : SmartBuffer 64 8 0) i)
      ∧ (∀ v h2 b2, SmartBuffer.fill h1
            (⟨Store.dyn (some 0)⟩ : SmartBuffer 64 8 0) v = some (h2, b2) →
          ∀ i, SmartBuffer.readByte h2 c i = SmartBuffer.readByte h1 c i)) :=
  ⟨by decide,
    C5_copy_independent 64 8 0 [some [1, 2, 3, 4, 5, 6, 7, 8]]
      ⟨Store.dyn (some 0)⟩ (by decide)⟩

namespace SmartBuffer

/-- After `setRegion`, the buffer's backing region holds exactly the new bytes
(provided the original buffer had a live region). -/
theorem dataRegion_setRegion_self (h : Heap) (b : SmartBuffer w size threshold)
    (r r' : List Nat) (hd : dataRegion h b = some r) :
    dataRegion (setRegion h b r').1 (setRegion h b r').2 = some r' := by
  cases hb : b.buf with
  | stat a => simp [setRegion, hb, dataRegion]
  | dyn p =>
    cases p with
    | none => rw [dataRegion, hb] at hd; exact absurd hd (by simp)
    | some p =>
      have hrp : readPtr h p = some r := by
        rw [dataRegion, hb] at hd; exact hd
      have hp : p < h.length := readPtr_lt_length h p r hrp
      simp [setRegion, hb, dataRegion, readPtr_writePtr_self _ _ _ hp]

end SmartBuffer

/-- C8: `fill(v)` writes `v` to exactly the `size` logical bytes and leaves
every other byte of the region (the padding in `[size, ACTUAL_SIZE)`)
unchanged; `clear()` is definitionally `fill(0)`, so `fill(v)` followed by
`clear()` restores all logical bytes to 0 while the padding still holds its
original content; `fill_all(v)` and `clear_all()` write all `ACTUAL_SIZE`
bytes including the padding. -/
theorem C8_fill_clear_frame (w size threshold : Nat) (h : Heap)
    (b : SmartBuffer w size threshold) (v : Nat)
    (hwf : SmartBuffer.wfB h b = true) (hv : v < 256)
    (hs : size ≤ ACTUAL_SIZE w size) :
    ∃ h1 b1 h2 b2 h3 b3 h4 b4,
      SmartBuffer.fill h b v = some (h1, b1)
      ∧ (∀ i, i < size → SmartBuffer.readByte h1 b1 i = some v)
      ∧ (∀ i, size ≤ i →
          SmartBuffer.readByte h1 b1 i = SmartBuffer.readByte h b i)
      ∧ SmartBuffer.clear h1 b1 = SmartBuffer.fill h1 b1 0
      ∧ SmartBuffer.clear h1 b1 = some (h2, b2)
      ∧ (∀ i, i < size → SmartBuffer.readByte h2 b2 i = some 0)
      ∧ (∀ i, size ≤ i →
          SmartBuffer.readByte h2 b2 i = SmartBuffer.readByte h b i)
      ∧ SmartBuffer.fill_all h b v = some (h3, b3)
      ∧ (∀ i, i < ACTUAL_SIZE w size → SmartBuffer.readByte h3 b3 i = some v)
      ∧ SmartBuffer.clear_all h b = some (h4, b4)
      ∧ (∀ i, i < ACTUAL_SIZE w size →
          SmartBuffer.readByte h4 b4 i = some 0) := by
  obtain ⟨r, hd, hlen⟩ := SmartBuffer.wfB_dataRegion h b hwf
  have hsr : size ≤ r.length := by omega
  have hvmod : v % 256 = v := Nat.mod_eq_of_lt hv
  have hfill : SmartBuffer.fill h b v
      = some (SmartBuffer.setRegion h b (list_fill_n v r size)) := by
    unfold SmartBuffer.fill
    rw [hd]
    show (if size ≤ r.length
        then some (SmartBuffer.setRegion h b (list_fill_n v r size))
        else none) = _
    rw [if_pos hsr]
  have hd1 : SmartBuffer.dataRegion
      (SmartBuffer.setRegion h b (list_fill_n v r size)).1
      (SmartBuffer.setRegion h b (list_fill_n v r size)).2
      = some (list_fill_n v r size) :=
    SmartBuffer.dataRegion_setRegion_self h b r _ hd
  have hsr1 : size ≤ (list_fill_n v r size).length := by
    rw [list_fill_n_length]; exact hsr
  have hclear : SmartBuffer.clear
      (SmartBuffer.setRegion h b (list_fill_n v r size)).1
      (SmartBuffer.setRegion h b (list_fill_n v r size)).2
      = some (SmartBuffer.setRegion
          (SmartBuffer.setRegion h b (list_fill_n v r size)).1
          (SmartBuffer.setRegion h b (list_fill_n v r size)).2
          (list_fill_n 0 (list_fill_n v r size) size)) := by
    unfold SmartBuffer.clear SmartBuffer.fill
    rw [hd1]
    show (if size ≤ (list_fill_n v r size).length
        then some _ else none) = _
    rw [if_pos hsr1]
  have hAr : ACTUAL_SIZE w size ≤ r.length := by omega
  have hfillall : SmartBuffer.fill_all h b v
      = some (SmartBuffer.setRegion h b
          (list_fill_n v r (ACTUAL_SIZE w size))) := by
    unfold SmartBuffer.fill_all
    rw [hd]
    show (if ACTUAL_SIZE w size ≤ r.length
        then some (SmartBuffer.setRegion h b
          (list_fill_n v r (ACTUAL_SIZE w size)))
        else none) = _
    rw [if_pos hAr]
  have hclearall : SmartBuffer.clear_all h b
      = some (SmartBuffer.setRegion h b
          (list_fill_n 0 r (ACTUAL_SIZE w size))) := by
    unfold SmartBuffer.clear_all SmartBuffer.fill_all
    rw [hd]
    show (if ACTUAL_SIZE w size ≤ r.length
        then some (SmartBuffer.setRegion h b
          (list_fill_n 0 r (ACTUAL_SIZE w size)))
        else none) = _
    rw [if_pos hAr]
  refine ⟨_, _, _, _, _, _, _, _, hfill, ?_, ?_, rfl, hclear, ?_, ?_,
    hfillall, ?_, hclearall, ?_⟩
  · intro i hi
    show SmartBuffer.readByte
        (SmartBuffer.setRegion h b (list_fill_n v r size)).1
        (SmartBuffer.setRegion h b (list_fill_n v r size)).2 i = some v
    rw [SmartBuffer.readByte_setRegion_self h b r _ hd i,
      list_fill_n_getElem?, if_pos ⟨hi, by omega⟩, hvmod]
  · intro i hi
    show SmartBuffer.readByte
        (SmartBuffer.setRegion h b (list_fill_n v r size)).1
        (SmartBuffer.setRegion h b (list_fill_n v r size)).2 i
      = SmartBuffer.readByte h b i
    rw [SmartBuffer.readByte_setRegion_self h b r _ hd i,
      list_fill_n_getElem?, if_neg (by omega)]
    simp [SmartBuffer.readByte, hd]
  · intro i hi
    show SmartBuffer.readByte
        (SmartBuffer.setRegion
          (SmartBuffer.setRegion h b (list_fill_n v r size)).1
          (SmartBuffer.setRegion h b (list_fill_n v r size)).2
          (list_fill_n 0 (list_fill_n v r size) size)).1
        (SmartBuffer.setRegion
          (SmartBuffer.setRegion h b (list_fill_n v r size)).1
          (SmartBuffer.setRegion h b (list_fill_n v r size)).2
          (list_fill_n 0 (list_fill_n v r size) size)).2 i = some 0
    rw [SmartBuffer.readByte_setRegion_self _ _ _ _ hd1 i,
      list_fill_n_getElem?, if_pos ⟨hi, by rw [list_fill_n_length]; omega⟩]
  · intro i hi
    show SmartBuffer.readByte
        (SmartBuffer.setRegion
          (SmartBuffer.setRegion h b (list_fill_n v r size)).1
          (SmartBuffer.setRegion h b (list_fill_n v r size)).2
          (list_fill_n 0 (list_fill_n v r size) size)).1
        (SmartBuffer.setRegion
          (SmartBuffer.setRegion h b (list_fill_n v r size)).1
          (SmartBuffer.setRegion h b (list_fill_n v r size)).2
          (list_fill_n 0 (list_fill_n v r size) size)).2 i
      = SmartBuffer.readByte h b i
    rw [SmartBuffer.readByte_setRegion_self _ _ _ _ hd1 i,
      list_fill_n_getElem?, if_neg (by omega),
      list_fill_n_getElem?, if_neg (by omega)]
    simp [SmartBuffer.readByte, hd]
  · intro i hi
    show SmartBuffer.readByte
        (SmartBuffer.setRegion h b (list_fill_n v r (ACTUAL_SIZE w size))).1
        (SmartBuffer.setRegion h b (list_fill_n v r (ACTUAL_SIZE w size))).2 i
      = some v
    rw [SmartBuffer.readByte_setRegion_self h b r _ hd i,
      list_fill_n_getElem?, if_pos ⟨hi, by omega⟩, hvmod]
  · intro i hi
    show SmartBuffer.readByte
        (SmartBuffer.setRegion h b (list_fill_n 0 r (ACTUAL_SIZE w size))).1
        (SmartBuffer.setRegion h b (list_fill_n 0 r (ACTUAL_SIZE w size))).2 i
      = some 0
    rw [SmartBuffer.readByte_setRegion_self h b r _ hd i,
      list_fill_n_getElem?, if_pos ⟨hi, by omega⟩]

/-- Witness for C8: an inline `SmartBuffer<4>` (threshold 32, region of 8
zero bytes), filled with 7. -/
theorem C8_fill_clear_frame_witness :
    (SmartBuffer.wfB []
        (⟨Store.stat [0, 0, 0, 0, 0, 0, 0, 0]⟩ : SmartBuffer 64 4 32) = true
      ∧ 7 < 256 ∧ 4 ≤ ACTUAL_SIZE 64 4)
    ∧ (∃ h1 b1 h2 b2 h3 b3 h4 b4,
      SmartBuffer.fill []
          (⟨Store.stat [0, 0, 0, 0, 0, 0, 0, 0]⟩ : SmartBuffer 64 4 32) 7
        = some (h1, b1)
      ∧ (∀ i, i < 4 → SmartBuffer.readByte h1 b1 i = some 7)
      ∧ (∀ i, 4 ≤ i → SmartBuffer.readByte h1 b1 i
          = SmartBuffer.readByte []
              (⟨Store.stat [0, 0, 0, 0, 0, 0, 0, 0]⟩ : SmartBuffer 64 4 32) i)
      ∧ SmartBuffer.clear h1 b1 = SmartBuffer.fill h1 b1 0
      ∧ SmartBuffer.clear h1 b1 = some (h2, b2)
      ∧ (∀ i, i < 4 → SmartBuffer.readByte h2 b2 i = some 0)
      ∧ (∀ i, 4 ≤ i → SmartBuffer.readByte h2 b2 i
          = SmartBuffer.readByte []
              (⟨Store.stat [0, 0, 0, 0, 0, 0, 0, 0]⟩ : SmartBuffer 64 4 32) i)
      ∧ SmartBuffer.fill_all []
          (⟨Store.stat [0, 0, 0, 0, 0, 0, 0, 0]⟩ : SmartBuffer 64 4 32) 7
        = some (h3, b3)
      ∧ (∀ i, i < ACTUAL_SIZE 64 4 → SmartBuffer.readByte h3 b3 i = some 7)
      ∧ SmartBuffer.clear_all []
          (⟨Store.stat [0, 0, 0, 0, 0, 0, 0, 0]⟩ : SmartBuffer 64 4 32)
        = some (h4, b4)
      ∧ (∀ i, i < ACTUAL_SIZE 64 4 →
          SmartBuffer.readByte h4 b4 i = some 0)) :=
  ⟨⟨by decide, by decide, by decide⟩,
    C8_fill_clear_frame 64 4 32 [] ⟨Store.stat [0, 0, 0, 0, 0, 0, 0, 0]⟩ 7
      (by decide) (by decide) (by decide)⟩

/-- C9: heap-case copy assignment onto a distinct target succeeds, allocates a
new region exactly when the target holds none (it is moved-from) and otherwise
reuses the target's region in place (so the prior region is neither leaked nor
replaced); afterwards the target holds one live region of length `ACTUAL_SIZE`
whose bytes equal the source's. -/
theorem C9_copy_assign_heap (w size threshold : Nat) (h : Heap)
    (dst src : SmartBuffer w size threshold)
    (hus : use_static w size threshold = false)
    (hsrc : SmartBuffer.wfB h src = true)
    (hdst : SmartBuffer.shapeB h dst = true) :
    ∃ h1 d1, SmartBuffer.copyAssign false h dst src = some (h1, d1)
    ∧ SmartBuffer.wfB h1 d1 = true
    ∧ (∀ i, i < ACTUAL_SIZE w size →
        SmartBuffer.readByte h1 d1 i = SmartBuffer.readByte h src i)
    ∧ (dst.buf = Store.dyn none → h1.length = h.length + 1)
    ∧ (∀ q, dst.buf = Store.dyn (some q) →
        h1.length = h.length ∧ d1.buf = Store.dyn (some q)) := by
  cases hsb : src.buf with
  | stat a =>
    rw [SmartBuffer.wfB, hsb] at hsrc
    simp [hus] at hsrc
  | dyn spo =>
    cases spo with
    | none => rw [SmartBuffer.wfB, hsb] at hsrc; exact absurd hsrc (by simp)
    | some sp =>
      rw [SmartBuffer.wfB, hsb] at hsrc
      have hsrc2 : (!use_static w size threshold &&
          match readPtr h sp with
          | some r => r.length == ACTUAL_SIZE w size
          | none => false) = true := hsrc
      cases hsr : readPtr h sp with
      | none => rw [hsr] at hsrc2; exact absurd hsrc2 (by simp)
      | some sr =>
        rw [hsr] at hsrc2
        simp only [Bool.and_eq_true, beq_iff_eq] at hsrc2
        have hsrlen : sr.length = ACTUAL_SIZE w size := hsrc2.2
        have hsp : sp < h.length := readPtr_lt_length h sp sr hsr
        cases hdb : dst.buf with
        | stat a =>
          rw [SmartBuffer.shapeB, hdb] at hdst
          simp [hus] at hdst
        | dyn dpo =>
          cases dpo with
          | none =>
            have hsp' : readPtr
                (h ++ [some (List.replicate (ACTUAL_SIZE w size) 0)]) sp
                = some sr := by
              rw [readPtr_append_lt _ _ _ hsp, hsr]
            have hq' : readPtr
                (h ++ [some (List.replicate (ACTUAL_SIZE w size) 0)]) h.length
                = some (List.replicate (ACTUAL_SIZE w size) 0) :=
              readPtr_append_self _ _
            have hqlt : h.length <
                (h ++ [some (List.replicate (ACTUAL_SIZE w size) 0)]).length := by
              simp
            refine ⟨writePtr (h ++ [some (List.replicate (ACTUAL_SIZE w size) 0)])
                h.length
                (list_copy_n sr (ACTUAL_SIZE w size)
                  (List.replicate (ACTUAL_SIZE w size) 0)),
              ⟨Store.dyn (some h.length)⟩, ?_, ?_, ?_, ?_, ?_⟩
            · simp [SmartBuffer.copyAssign, hdb, hsb, alloc, hsp', hq']
            · rw [SmartBuffer.wfB]
              show (!use_static w size threshold &&
                  match readPtr
                    (writePtr (h ++ [some (List.replicate (ACTUAL_SIZE w size) 0)])
                      h.length
                      (list_copy_n sr (ACTUAL_SIZE w size)
                        (List.replicate (ACTUAL_SIZE w size) 0)))
                    h.length with
                  | some r => r.length == ACTUAL_SIZE w size
                  | none => false) = true
              rw [readPtr_writePtr_self _ _ _ hqlt]
              simp [hus, list_copy_n_length]
            · intro i hi
              have hrd : readPtr
                  (writePtr (h ++ [some (List.replicate (ACTUAL_SIZE w size) 0)])
                    h.length
                    (list_copy_n sr (ACTUAL_SIZE w size)
                      (List.replicate (ACTUAL_SIZE w size) 0)))
                  h.length
                  = some (list_copy_n sr (ACTUAL_SIZE w size)
                      (List.replicate (ACTUAL_SIZE w size) 0)) :=
                readPtr_writePtr_self _ _ _ hqlt
              simp only [SmartBuffer.readByte, SmartBuffer.dataRegion, hsb, hsr,
                hrd, Option.some_bind]
              rw [list_copy_n_getElem?,
                if_pos ⟨hi, by omega, by simp; omega⟩]
            · intro _
              simp [writePtr]
            · intro q hq
              exact absurd hq (by simp)
          | some q =>
            rw [SmartBuffer.shapeB, hdb] at hdst
            have hdst2 : (!use_static w size threshold &&
                match readPtr h q with
                | some r => r.length == ACTUAL_SIZE w size
                | none => false) = true := hdst
            cases hdr : readPtr h q with
            | none => rw [hdr] at hdst2; exact absurd hdst2 (by simp)
            | some dr =>
              rw [hdr] at hdst2
              simp only [Bool.and_eq_true, beq_iff_eq] at hdst2
              have hdrlen : dr.length = ACTUAL_SIZE w size := hdst2.2
              have hqh : q < h.length := readPtr_lt_length h q dr hdr
              refine ⟨writePtr h q (list_copy_n sr (ACTUAL_SIZE w size) dr),
                ⟨Store.dyn (some q)⟩, ?_, ?_, ?_, ?_, ?_⟩
              · simp [SmartBuffer.copyAssign, hdb, hsb, hsr, hdr]
              · rw [SmartBuffer.wfB]
                show (!use_static w size threshold &&
                    match readPtr (writePtr h q
                        (list_copy_n sr (ACTUAL_SIZE w size) dr)) q with
                    | some r => r.length == ACTUAL_SIZE w size
                    | none => false) = true
                rw [readPtr_writePtr_self _ _ _ hqh]
                simp [hus, list_copy_n_length, hdrlen]
              · intro i hi
                have hrd : readPtr
                    (writePtr h q (list_copy_n sr (ACTUAL_SIZE w size) dr)) q
                    = some (list_copy_n sr (ACTUAL_SIZE w size) dr) :=
                  readPtr_writePtr_self _ _ _ hqh
                simp only [SmartBuffer.readByte, SmartBuffer.dataRegion, hsb,
                  hsr, hrd, Option.some_bind]
                rw [list_copy_n_getElem?, if_pos ⟨hi, by omega, by omega⟩]
              · intro hnone
                exact absurd hnone (by simp)
              · intro q' hq'
                simp only [Store.dyn.injEq, Option.some.injEq] at hq'
                subst hq'
                exact ⟨by simp [writePtr], rfl⟩

/-- Witness for C9: heap `SmartBuffer<40>` (threshold 32) handles: source at
address 0 holding forty 1-bytes, target at address 1 holding forty 0-bytes. -/
theorem C9_copy_assign_heap_witness :
    (use_static 64 40 32 = false
      ∧ SmartBuffer.wfB [some (List.replicate 40 1), some (List.replicate 40 0)]
          (⟨Store.dyn (some 0)⟩ : SmartBuffer 64 40 32) = true
      ∧ SmartBuffer.shapeB
          [some (List.replicate 40 1), some (List.replicate 40 0)]
          (⟨Store.dyn (some 1)⟩ : SmartBuffer 64 40 32) = true)
    ∧ (∃ h1 d1, SmartBuffer.copyAssign false
          [some (List.replicate 40 1), some (List.replicate 40 0)]
          (⟨Store.dyn (some 1)⟩ : SmartBuffer 64 40 32)
          (⟨Store.dyn (some 0)⟩ : SmartBuffer 64 40 32) = some (h1, d1)
      ∧ SmartBuffer.wfB h1 d1 = true
      ∧ (∀ i, i < ACTUAL_SIZE 64 40 →
          SmartBuffer.readByte h1 d1 i
            = SmartBuffer.readByte
                [some (List.replicate 40 1), some (List.replicate 40 0)]
                (⟨Store.dyn (some 0)⟩ : SmartBuffer 64 40 32) i)
      ∧ ((⟨Store.dyn (some 1)⟩ : SmartBuffer 64 40 32).buf = Store.dyn none →
          h1.length
            = [some (List.replicate 40 1),
                some (List.replicate 40 0)].length + 1)
      ∧ (∀ q, (⟨Store.dyn (some 1)⟩ : SmartBuffer 64 40 32).buf
            = Store.dyn (some q) →
          h1.length
              = [some (List.replicate 40 1),
                  some (List.replicate 40 0)].length
            ∧ d1.buf = Store.dyn (some q))) :=
  ⟨⟨by decide, by decide, by decide⟩,
    C9_copy_assign_heap 64 40 32
      [some (List.replicate 40 1), some (List.replicate 40 0)]
      ⟨Store.dyn (some 1)⟩ ⟨Store.dyn (some 0)⟩
      (by decide) (by decide) (by decide)⟩

end SmartBufferModel
